import Mathlib

/-!
Verification of the BPF event-capture probe in `src/game_env/bpf_program.c`.

The program consists of four probes:
* `trace_exec`   — fires on process creation, publishes one event of type 'E';
* `trace_exit`   — fires on process exit, publishes one event of type 'X';
* `sys_enter_kill` — fires on kill-syscall entry, stashes a 'K' event in the
  `kill_args` hash map keyed by the caller's `pid_tgid`;
* `sys_exit_kill`  — fires on kill-syscall exit, looks up the stashed event,
  publishes it only when the syscall returned 0, and deletes the map entry.

The embedding below models the probes as pure functions from an execution
context and the `kill_args` map state to a new map state, a list of published
events, and the probe's integer return value.  Machine integers are modelled
as `Nat` with explicit `% 2^32` where a 32-bit assignment truncates.
-/

namespace BpfProgram

/-- `2^32`, the modulus of the `u32` fields of `event_t`. -/
def U32 : Nat := 4294967296

/-- Shallow embedding of `struct event_t` (bpf_program.c lines 7-14).
Fields `pid`, `ppid`, `uid`, `kill_pid` are `u32` (modelled as `Nat < U32`
by construction), `comm` is `char[16]`, `type` is a single `char`. -/
structure event_t where
  pid : Nat
  ppid : Nat
  uid : Nat
  kill_pid : Nat
  comm : List Char
  type : Char
deriving DecidableEq, Repr

/-- The kernel execution context current when a probe fires: the calling
thread's id (`task->pid`), thread-group id (`task->tgid`), effective uid and
gid, the parent's tgid (`task->real_parent->tgid`) and the command name
(`task->comm`). -/
structure Ctx where
  tid : Nat
  tgid : Nat
  uid : Nat
  gid : Nat
  ppid : Nat
  comm : List Char
deriving DecidableEq, Repr

/-- Kernel helper `bpf_get_current_pid_tgid`: per the BPF helper ABI it
returns the 64-bit value `tgid << 32 | pid` for the current task. -/
def bpf_get_current_pid_tgid (c : Ctx) : Nat :=
  (c.tgid % U32) * U32 + c.tid % U32

/-- Kernel helper `bpf_get_current_uid_gid`: per the BPF helper ABI it
returns the 64-bit value `gid << 32 | uid` for the current task (the gid is
in the HIGH 32 bits, the uid in the low 32 bits). -/
def bpf_get_current_uid_gid (c : Ctx) : Nat :=
  (c.gid % U32) * U32 + c.uid % U32

/-- Kernel helper `bpf_get_current_comm` copying at most 16 bytes of the
current task's command name. -/
def bpf_get_current_comm (c : Ctx) : List Char :=
  c.comm.take 16

/-- The `kill_args` BPF hash map (`BPF_HASH(kill_args, u64, struct event_t)`,
line 35), modelled as an association list from the `u64` key to the stored
event. -/
abbrev KillMap := List (Nat × event_t)

/-- `kill_args.lookup(&k)`: the value stored under key `k`, if any. -/
def mapLookup (m : KillMap) (k : Nat) : Option event_t :=
  (m.find? (fun p => p.1 == k)).map (fun p => p.2)

/-- `kill_args.delete(&k)`: remove any entry under key `k`. -/
def mapDelete (m : KillMap) (k : Nat) : KillMap :=
  m.filter (fun p => p.1 != k)

/-- `kill_args.update(&k, &v)`: insert `v` under key `k`, replacing any
existing entry under `k` (BPF hash update is last-write-wins). -/
def mapUpdate (m : KillMap) (k : Nat) (v : event_t) : KillMap :=
  (k, v) :: mapDelete m k

/-- The observable result of one probe invocation: the `kill_args` map
afterwards, the list of records handed to `events.perf_submit` during the
invocation (in order), and the probe's return value. -/
structure ProbeResult where
  map : KillMap
  published : List event_t
  ret : Int
deriving DecidableEq, Repr

/-- `trace_exec` (lines 19-32): build an event with `type = 'E'` from the
current context (`kill_pid` stays 0 from the `= {}` zero-initialisation),
submit it, return 0.  The `kill_args` map is not touched. -/
def trace_exec (c : Ctx) (m : KillMap) : ProbeResult :=
  let pid_tgid := bpf_get_current_pid_tgid c
  let event : event_t :=
    { pid := pid_tgid / U32 % U32
      ppid := c.ppid % U32
      uid := bpf_get_current_uid_gid c / U32 % U32
      kill_pid := 0
      comm := bpf_get_current_comm c
      type := 'E' }
  { map := m, published := [event], ret := 0 }

/-- `trace_exit` (lines 38-51): identical to `trace_exec` except the event
type is `'X'`. -/
def trace_exit (c : Ctx) (m : KillMap) : ProbeResult :=
  let pid_tgid := bpf_get_current_pid_tgid c
  let event : event_t :=
    { pid := pid_tgid / U32 % U32
      ppid := c.ppid % U32
      uid := bpf_get_current_uid_gid c / U32 % U32
      kill_pid := 0
      comm := bpf_get_current_comm c
      type := 'X' }
  { map := m, published := [event], ret := 0 }

/-- The local `event` variable built by `sys_enter_kill` (lines 57-68): a
`'K'` event sampled from the current context with `kill_pid = args->pid`. -/
def killEvent (c : Ctx) (target : Nat) : event_t :=
  { pid := bpf_get_current_pid_tgid c / U32 % U32
    ppid := c.ppid % U32
    uid := bpf_get_current_uid_gid c / U32 % U32
    kill_pid := target % U32
    comm := bpf_get_current_comm c
    type := 'K' }

/-- `sys_enter_kill` (lines 54-73): build a `'K'` event with
`kill_pid = args->pid` from the current context, stash it in `kill_args`
under the caller's `pid_tgid`, publish nothing, return 0. -/
def sys_enter_kill (c : Ctx) (target : Nat) (m : KillMap) : ProbeResult :=
  let pid_tgid := bpf_get_current_pid_tgid c
  { map := mapUpdate m pid_tgid (killEvent c target), published := [], ret := 0 }

/-- `sys_exit_kill` (lines 76-92): look up the stashed event under the
caller's `pid_tgid`.  If absent, return 0 with no effect.  If present,
submit it only when `args->ret == 0`, then delete the entry and return 0. -/
def sys_exit_kill (c : Ctx) (ret : Int) (m : KillMap) : ProbeResult :=
  let pid_tgid := bpf_get_current_pid_tgid c
  match mapLookup m pid_tgid with
  | none => { map := m, published := [], ret := 0 }
  | some stored_event =>
      { map := mapDelete m pid_tgid
        published := if ret = 0 then [stored_event] else []
        ret := 0 }

/-! ### Basic map lemmas -/

theorem mapLookup_nil (k : Nat) : mapLookup [] k = none := rfl

theorem mapLookup_cons (p : Nat × event_t) (t : KillMap) (k : Nat) :
    mapLookup (p :: t) k = if p.1 = k then some p.2 else mapLookup t k := by
  by_cases h : p.1 = k
  · rw [if_pos h]
    unfold mapLookup
    rw [List.find?_cons_of_pos _ (by simpa using h)]
    rfl
  · rw [if_neg h]
    unfold mapLookup
    rw [List.find?_cons_of_neg _ (by simpa using h)]

theorem mapDelete_cons (p : Nat × event_t) (t : KillMap) (k : Nat) :
    mapDelete (p :: t) k = if p.1 = k then mapDelete t k else p :: mapDelete t k := by
  by_cases h : p.1 = k <;> simp [mapDelete, List.filter_cons, h]

theorem mapLookup_mapDelete_self (m : KillMap) (k : Nat) :
    mapLookup (mapDelete m k) k = none := by
  induction m with
  | nil => rfl
  | cons p t ih =>
      rw [mapDelete_cons]
      rcases eq_or_ne p.1 k with h | h
      · rw [if_pos h]; exact ih
      · rw [if_neg h, mapLookup_cons, if_neg h]; exact ih

theorem mapLookup_mapDelete_ne (m : KillMap) (k k' : Nat) (h : k' ≠ k) :
    mapLookup (mapDelete m k) k' = mapLookup m k' := by
  induction m with
  | nil => rfl
  | cons p t ih =>
      rw [mapDelete_cons]
      rcases eq_or_ne p.1 k with hp | hp
      · rw [if_pos hp, ih, mapLookup_cons, if_neg (by rw [hp]; exact Ne.symm h)]
      · rw [if_neg hp, mapLookup_cons, mapLookup_cons]
        rcases eq_or_ne p.1 k' with hq | hq
        · rw [if_pos hq, if_pos hq]
        · rw [if_neg hq, if_neg hq, ih]

theorem mapLookup_mapUpdate_self (m : KillMap) (k : Nat) (v : event_t) :
    mapLookup (mapUpdate m k v) k = some v := by
  rw [mapUpdate, mapLookup_cons, if_pos rfl]

theorem mapLookup_mapUpdate_ne (m : KillMap) (k k' : Nat) (v : event_t)
    (h : k' ≠ k) :
    mapLookup (mapUpdate m k v) k' = mapLookup m k' := by
  rw [mapUpdate, mapLookup_cons, if_neg (Ne.symm h), mapLookup_mapDelete_ne m k k' h]

/-! ### Arithmetic and probe-shape lemmas -/

/-- The `u32` extracted by `>> 32` from the helper's `tgid << 32 | pid`
packing is the tgid of the caller. -/
theorem pid_field_eq (c : Ctx) :
    bpf_get_current_pid_tgid c / U32 % U32 = c.tgid % U32 := by
  simp only [bpf_get_current_pid_tgid, U32]
  omega

/-- The `u32` extracted by `>> 32` from the helper's `gid << 32 | uid`
packing is the GID of the caller, not the uid. -/
theorem uid_field_eq (c : Ctx) :
    bpf_get_current_uid_gid c / U32 % U32 = c.gid % U32 := by
  simp only [bpf_get_current_uid_gid, U32]
  omega

/-- `sys_exit_kill` when the lookup finds a stored event: publish it iff the
return code is 0, delete the entry, return 0. -/
theorem sys_exit_kill_found (c : Ctx) (r : Int) (m : KillMap) (ev : event_t)
    (h : mapLookup m (bpf_get_current_pid_tgid c) = some ev) :
    sys_exit_kill c r m =
      { map := mapDelete m (bpf_get_current_pid_tgid c)
        published := if r = 0 then [ev] else []
        ret := 0 } := by
  simp [sys_exit_kill, h]

/-- `sys_exit_kill` when the lookup finds nothing: no effect at all. -/
theorem sys_exit_kill_notfound (c : Ctx) (r : Int) (m : KillMap)
    (h : mapLookup m (bpf_get_current_pid_tgid c) = none) :
    sys_exit_kill c r m = { map := m, published := [], ret := 0 } := by
  simp [sys_exit_kill, h]

/-! ### Claim theorems -/

/-- C4: every invocation of `trace_exec` publishes exactly one record with
type byte `'E'` and `kill_pid = 0`, and every invocation of `trace_exit`
publishes exactly one record with type byte `'X'` and `kill_pid = 0`. -/
theorem exec_exit_probe_purity (c : Ctx) (m : KillMap) :
    (∃ ev, (trace_exec c m).published = [ev] ∧ ev.type = 'E' ∧ ev.kill_pid = 0) ∧
    (∃ ev, (trace_exit c m).published = [ev] ∧ ev.type = 'X' ∧ ev.kill_pid = 0) :=
  ⟨⟨_, rfl, rfl, rfl⟩, ⟨_, rfl, rfl, rfl⟩⟩

/-- C9: every one of the four probes returns 0 on every execution path, for
every input context, argument and tracker state. -/
theorem probes_always_return_zero (c : Ctx) (t : Nat) (r : Int) (m : KillMap) :
    (trace_exec c m).ret = 0 ∧ (trace_exit c m).ret = 0 ∧
    (sys_enter_kill c t m).ret = 0 ∧ (sys_exit_kill c r m).ret = 0 := by
  refine ⟨rfl, rfl, rfl, ?_⟩
  cases h : mapLookup m (bpf_get_current_pid_tgid c) <;> simp [sys_exit_kill, h]

/-- C10: `trace_exec` and `trace_exit` leave the `kill_args` tracker map
completely unchanged. -/
theorem exec_exit_preserve_tracker (c : Ctx) (m : KillMap) :
    (trace_exec c m).map = m ∧ (trace_exit c m).map = m :=
  ⟨rfl, rfl⟩

/-- C1: a kill-entry with target `T` immediately followed by a kill-exit
with return code 0 on the same thread (same `pid_tgid` join key) publishes
exactly one record; its `kill_pid` equals `T`, its type is `'K'`, and it is
exactly the record stored at entry time: every field was sampled from the
entry-time context `c1`, nothing is resampled at exit. -/
theorem kill_entry_success_exit_publishes_stored (c1 c2 : Ctx) (T : Nat)
    (m : KillMap)
    (hkey : bpf_get_current_pid_tgid c2 = bpf_get_current_pid_tgid c1)
    (hT : T < U32) :
    (sys_enter_kill c1 T m).published = [] ∧
    ∃ ev, mapLookup (sys_enter_kill c1 T m).map (bpf_get_current_pid_tgid c1)
        = some ev ∧
      (sys_exit_kill c2 0 (sys_enter_kill c1 T m).map).published = [ev] ∧
      ev.kill_pid = T ∧ ev.type = 'K' ∧
      ev.pid = c1.tgid % U32 ∧ ev.ppid = c1.ppid % U32 ∧
      ev.uid = bpf_get_current_uid_gid c1 / U32 % U32 ∧
      ev.comm = bpf_get_current_comm c1 := by
  have hl : mapLookup (sys_enter_kill c1 T m).map (bpf_get_current_pid_tgid c2)
      = some (killEvent c1 T) := by
    rw [hkey]
    exact mapLookup_mapUpdate_self m _ _
  refine ⟨rfl, killEvent c1 T, mapLookup_mapUpdate_self m _ _, ?_, ?_, rfl,
    pid_field_eq c1, rfl, rfl, rfl⟩
  · rw [sys_exit_kill_found c2 0 _ _ hl]
    simp
  · simpa [killEvent] using Nat.mod_eq_of_lt hT

/-- Concrete context used by the witnesses: an ordinary single-threaded
caller. -/
def ctxA : Ctx :=
  { tid := 10, tgid := 10, uid := 1000, gid := 1000, ppid := 1,
    comm := ['s', 'h'] }

/-- C1 witness at a concrete input. -/
theorem kill_entry_success_exit_publishes_stored_witness :
    (sys_enter_kill ctxA 500 []).published = [] ∧
    ∃ ev, mapLookup (sys_enter_kill ctxA 500 []).map
        (bpf_get_current_pid_tgid ctxA) = some ev ∧
      (sys_exit_kill ctxA 0 (sys_enter_kill ctxA 500 []).map).published = [ev] ∧
      ev.kill_pid = 500 ∧ ev.type = 'K' ∧
      ev.pid = ctxA.tgid % U32 ∧ ev.ppid = ctxA.ppid % U32 ∧
      ev.uid = bpf_get_current_uid_gid ctxA / U32 % U32 ∧
      ev.comm = bpf_get_current_comm ctxA :=
  kill_entry_success_exit_publishes_stored ctxA ctxA 500 [] rfl (by decide)

/-- C2: a kill-entry with target `T` followed by a kill-exit with any
non-zero return code on the same thread publishes nothing at either probe,
and the tracker entry for that key is removed: the key maps to nothing
after the exit. -/
theorem kill_entry_failed_exit_publishes_nothing (c1 c2 : Ctx) (T : Nat)
    (m : KillMap) (r : Int)
    (hkey : bpf_get_current_pid_tgid c2 = bpf_get_current_pid_tgid c1)
    (hr : r ≠ 0) :
    (sys_enter_kill c1 T m).published = [] ∧
    (sys_exit_kill c2 r (sys_enter_kill c1 T m).map).published = [] ∧
    mapLookup (sys_exit_kill c2 r (sys_enter_kill c1 T m).map).map
      (bpf_get_current_pid_tgid c2) = none := by
  have hl : mapLookup (sys_enter_kill c1 T m).map (bpf_get_current_pid_tgid c2)
      = some (killEvent c1 T) := by
    rw [hkey]
    exact mapLookup_mapUpdate_self m _ _
  rw [sys_exit_kill_found c2 r _ _ hl]
  exact ⟨rfl, by simp [hr], mapLookup_mapDelete_self _ _⟩

/-- C2 witness at a concrete input with return code -1. -/
theorem kill_entry_failed_exit_publishes_nothing_witness :
    (sys_enter_kill ctxA 500 []).published = [] ∧
    (sys_exit_kill ctxA (-1) (sys_enter_kill ctxA 500 []).map).published = [] ∧
    mapLookup (sys_exit_kill ctxA (-1) (sys_enter_kill ctxA 500 []).map).map
      (bpf_get_current_pid_tgid ctxA) = none :=
  kill_entry_failed_exit_publishes_nothing ctxA ctxA 500 [] (-1) rfl (by decide)

/-- C5: a kill-exit on a thread whose join key has no tracker entry
publishes nothing, returns 0 (no error), leaves the whole map unchanged
and in particular leaves that key absent. -/
theorem kill_exit_without_entry_inert (c : Ctx) (r : Int) (m : KillMap)
    (h : mapLookup m (bpf_get_current_pid_tgid c) = none) :
    (sys_exit_kill c r m).published = [] ∧
    (sys_exit_kill c r m).map = m ∧
    (sys_exit_kill c r m).ret = 0 ∧
    mapLookup (sys_exit_kill c r m).map (bpf_get_current_pid_tgid c) = none := by
  rw [sys_exit_kill_notfound c r m h]
  exact ⟨rfl, rfl, rfl, h⟩

/-- C5 witness: kill-exit on the empty tracker. -/
theorem kill_exit_without_entry_inert_witness :
    (sys_exit_kill ctxA (-1) []).published = [] ∧
    (sys_exit_kill ctxA (-1) []).map = [] ∧
    (sys_exit_kill ctxA (-1) []).ret = 0 ∧
    mapLookup (sys_exit_kill ctxA (-1) []).map
      (bpf_get_current_pid_tgid ctxA) = none :=
  kill_exit_without_entry_inert ctxA (-1) [] rfl

/-- C6: two kill-entries on the same thread with targets `T1` then `T2` and
no intervening exit leave only the second record under the join key, and a
subsequent successful exit publishes exactly one Kill record, carrying
`kill_pid = T2`; when `T1 ≠ T2` no published record carries `T1`. -/
theorem double_entry_overwrite (c1 c2 c3 : Ctx) (T1 T2 : Nat) (m : KillMap)
    (h21 : bpf_get_current_pid_tgid c2 = bpf_get_current_pid_tgid c1)
    (h32 : bpf_get_current_pid_tgid c3 = bpf_get_current_pid_tgid c2)
    (hT2 : T2 < U32) :
    ∃ ev, mapLookup (sys_enter_kill c2 T2 (sys_enter_kill c1 T1 m).map).map
        (bpf_get_current_pid_tgid c1) = some ev ∧
      (sys_exit_kill c3 0
        (sys_enter_kill c2 T2 (sys_enter_kill c1 T1 m).map).map).published
        = [ev] ∧
      ev.kill_pid = T2 ∧ ev.type = 'K' ∧
      (T1 ≠ T2 → ∀ e ∈ (sys_exit_kill c3 0
          (sys_enter_kill c2 T2 (sys_enter_kill c1 T1 m).map).map).published,
        e.kill_pid ≠ T1) := by
  have hl : mapLookup (sys_enter_kill c2 T2 (sys_enter_kill c1 T1 m).map).map
      (bpf_get_current_pid_tgid c3) = some (killEvent c2 T2) := by
    rw [h32]
    exact mapLookup_mapUpdate_self _ _ _
  have hpub : (sys_exit_kill c3 0
      (sys_enter_kill c2 T2 (sys_enter_kill c1 T1 m).map).map).published
      = [killEvent c2 T2] := by
    rw [sys_exit_kill_found c3 0 _ _ hl]
    simp
  have hkp : (killEvent c2 T2).kill_pid = T2 := by
    simpa [killEvent] using Nat.mod_eq_of_lt hT2
  refine ⟨killEvent c2 T2, by rw [← h21]; exact mapLookup_mapUpdate_self _ _ _,
    hpub, hkp, rfl, ?_⟩
  intro hne e he
  rw [hpub, List.mem_singleton] at he
  subst he
  rw [hkp]
  exact Ne.symm hne

/-- C6 witness: targets 111 then 222 on one thread, then a successful exit. -/
theorem double_entry_overwrite_witness :
    ∃ ev, mapLookup (sys_enter_kill ctxA 222 (sys_enter_kill ctxA 111 []).map).map
        (bpf_get_current_pid_tgid ctxA) = some ev ∧
      (sys_exit_kill ctxA 0
        (sys_enter_kill ctxA 222 (sys_enter_kill ctxA 111 []).map).map).published
        = [ev] ∧
      ev.kill_pid = 222 ∧ ev.type = 'K' ∧
      ((111 : Nat) ≠ 222 → ∀ e ∈ (sys_exit_kill ctxA 0
          (sys_enter_kill ctxA 222 (sys_enter_kill ctxA 111 []).map).map).published,
        e.kill_pid ≠ 111) :=
  double_entry_overwrite ctxA ctxA ctxA 111 222 [] rfl rfl (by decide)

/-- One probe trigger together with its argument: the four attach points of
the program. -/
inductive Op where
  | procExec (c : Ctx)
  | procExit (c : Ctx)
  | killEnter (c : Ctx) (target : Nat)
  | killExit (c : Ctx) (r : Int)
deriving DecidableEq, Repr

/-- Dispatch one trigger to the corresponding probe. -/
def stepOp (m : KillMap) : Op → ProbeResult
  | .procExec c => trace_exec c m
  | .procExit c => trace_exit c m
  | .killEnter c t => sys_enter_kill c t m
  | .killExit c r => sys_exit_kill c r m

/-- Run a sequence of triggers from tracker state `m`, recording for each
trigger the list of records it published. -/
def runAnnot (m : KillMap) : List Op → List (Op × List event_t)
  | [] => []
  | o :: os => (o, (stepOp m o).published) :: runAnnot (stepOp m o).map os

/-- A context whose effective uid (1000) differs from its gid (2000). -/
def ctxMix : Ctx :=
  { tid := 7, tgid := 7, uid := 1000, gid := 2000, ppid := 1, comm := [] }

/-- C3 evidence: the probes assign `event.uid = bpf_get_current_uid_gid() >> 32`,
but the kernel helper packs `gid << 32 | uid`, so the `uid` field of every
published or stored record holds the caller's GID, not its effective uid.
At a context with uid 1000 and gid 2000, all three sampling probes store
2000 in the `uid` field. -/
theorem uid_field_holds_gid_not_uid :
    (trace_exec ctxMix []).published.map event_t.uid = [2000] ∧
    (trace_exit ctxMix []).published.map event_t.uid = [2000] ∧
    (mapLookup (sys_enter_kill ctxMix 500 []).map
      (bpf_get_current_pid_tgid ctxMix)).map event_t.uid = some 2000 ∧
    ctxMix.uid = 1000 ∧ ctxMix.gid = 2000 ∧ (2000 : Nat) ≠ 1000 := by
  decide

/-- C7: in every execution of the four probes, a record of type `'K'` is
published only by a kill-exit whose return code is 0, and a kill-entry
trigger never publishes anything. -/
theorem kill_records_only_from_successful_exit (m0 : KillMap) (ops : List Op)
    (o : Op) (evs : List event_t)
    (hmem : (o, evs) ∈ runAnnot m0 ops) :
    (∀ ev ∈ evs, ev.type = 'K' → ∃ c, o = Op.killExit c 0) ∧
    (∀ c t, o = Op.killEnter c t → evs = []) := by
  induction ops generalizing m0 with
  | nil => cases hmem
  | cons op rest ih =>
      simp only [runAnnot] at hmem
      rcases List.mem_cons.mp hmem with heq | hmem'
      · have h1 : o = op := congrArg Prod.fst heq
        have h2 : evs = (stepOp m0 op).published := congrArg Prod.snd heq
        subst h1
        subst h2
        cases o with
        | procExec c =>
            refine ⟨?_, ?_⟩
            · intro ev hev hk
              rw [show (stepOp m0 (Op.procExec c)).published
                  = [{ pid := bpf_get_current_pid_tgid c / U32 % U32
                       ppid := c.ppid % U32
                       uid := bpf_get_current_uid_gid c / U32 % U32
                       kill_pid := 0
                       comm := bpf_get_current_comm c
                       type := 'E' }] from rfl, List.mem_singleton] at hev
              subst hev
              cases hk
            · intro c' t' h
              cases h
        | procExit c =>
            refine ⟨?_, ?_⟩
            · intro ev hev hk
              rw [show (stepOp m0 (Op.procExit c)).published
                  = [{ pid := bpf_get_current_pid_tgid c / U32 % U32
                       ppid := c.ppid % U32
                       uid := bpf_get_current_uid_gid c / U32 % U32
                       kill_pid := 0
                       comm := bpf_get_current_comm c
                       type := 'X' }] from rfl, List.mem_singleton] at hev
              subst hev
              cases hk
            · intro c' t' h
              cases h
        | killEnter c t =>
            refine ⟨?_, ?_⟩
            · intro ev hev hk
              cases hev
            · intro c' t' h
              rfl
        | killExit c r =>
            refine ⟨?_, ?_⟩
            · intro ev hev hk
              by_cases hr : r = 0
              · exact ⟨c, by rw [hr]⟩
              · exfalso
                rcases hcase : mapLookup m0 (bpf_get_current_pid_tgid c)
                    with _ | ev'
                · rw [show stepOp m0 (Op.killExit c r) = sys_exit_kill c r m0
                      from rfl, sys_exit_kill_notfound c r m0 hcase] at hev
                  cases hev
                · rw [show stepOp m0 (Op.killExit c r) = sys_exit_kill c r m0
                      from rfl, sys_exit_kill_found c r m0 ev' hcase] at hev
                  simp [hr] at hev
            · intro c' t' h
              cases h
      · exact ih _ hmem'

/-- `Interleave xs ys zs` holds when `zs` is an interleaving of `xs` and
`ys` that preserves the internal order of each. -/
inductive Interleave : List Op → List Op → List Op → Prop
  | nil : Interleave [] [] []
  | left {x xs ys zs} : Interleave xs ys zs → Interleave (x :: xs) ys (x :: zs)
  | right {y xs ys zs} : Interleave xs ys zs → Interleave xs (y :: ys) (y :: zs)

/-- The records attributed to occurrences of trigger `o` in an annotated
run. -/
def pubOf (annot : List (Op × List event_t)) (o : Op) : List event_t :=
  ((annot.filter (fun p => p.1 == o)).map (fun p => p.2)).flatten

/-- The six interleavings of two two-element trigger sequences. -/
theorem interleave_two_two {a1 a2 b1 b2 : Op} {L : List Op}
    (h : Interleave [a1, a2] [b1, b2] L) :
    L = [a1, a2, b1, b2] ∨ L = [a1, b1, a2, b2] ∨ L = [a1, b1, b2, a2] ∨
    L = [b1, a1, a2, b2] ∨ L = [b1, a1, b2, a2] ∨ L = [b1, b2, a1, a2] := by
  cases h with
  | left h1 =>
      cases h1 with
      | left h2 =>
          cases h2 with
          | right h3 =>
              cases h3 with
              | right h4 =>
                  cases h4
                  exact Or.inl rfl
      | right h2 =>
          cases h2 with
          | left h3 =>
              cases h3 with
              | right h4 =>
                  cases h4
                  exact Or.inr (Or.inl rfl)
          | right h3 =>
              cases h3 with
              | left h4 =>
                  cases h4
                  exact Or.inr (Or.inr (Or.inl rfl))
  | right h1 =>
      cases h1 with
      | left h2 =>
          cases h2 with
          | left h3 =>
              cases h3 with
              | right h4 =>
                  cases h4
                  exact Or.inr (Or.inr (Or.inr (Or.inl rfl)))
          | right h3 =>
              cases h3 with
              | left h4 =>
                  cases h4
                  exact Or.inr (Or.inr (Or.inr (Or.inr (Or.inl rfl))))
      | right h2 =>
          cases h2 with
          | left h3 =>
              cases h3 with
              | left h4 =>
                  cases h4
                  exact Or.inr (Or.inr (Or.inr (Or.inr (Or.inr rfl))))

/-- A second concrete context on a different thread than `ctxA`. -/
def ctxB : Ctx :=
  { tid := 20, tgid := 20, uid := 1000, gid := 1000, ppid := 1,
    comm := ['z'] }

/-- C8: two threads with distinct join keys, each performing its own
kill-entry/kill-exit pair, interleaved in any order starting from the empty
tracker: the records attributed to each thread's triggers are exactly those
of that thread running alone, and a thread's triggers never modify the map
entry under any other key. -/
theorem key_isolation (cA cA' cB cB' : Ctx) (TA TB : Nat) (rA rB : Int)
    (L : List Op)
    (hA : bpf_get_current_pid_tgid cA' = bpf_get_current_pid_tgid cA)
    (hB : bpf_get_current_pid_tgid cB' = bpf_get_current_pid_tgid cB)
    (hAB : bpf_get_current_pid_tgid cA ≠ bpf_get_current_pid_tgid cB)
    (hil : Interleave [Op.killEnter cA TA, Op.killExit cA' rA]
        [Op.killEnter cB TB, Op.killExit cB' rB] L) :
    pubOf (runAnnot [] L) (Op.killEnter cA TA)
      = pubOf (runAnnot [] [Op.killEnter cA TA, Op.killExit cA' rA])
          (Op.killEnter cA TA) ∧
    pubOf (runAnnot [] L) (Op.killExit cA' rA)
      = pubOf (runAnnot [] [Op.killEnter cA TA, Op.killExit cA' rA])
          (Op.killExit cA' rA) ∧
    pubOf (runAnnot [] L) (Op.killEnter cB TB)
      = pubOf (runAnnot [] [Op.killEnter cB TB, Op.killExit cB' rB])
          (Op.killEnter cB TB) ∧
    pubOf (runAnnot [] L) (Op.killExit cB' rB)
      = pubOf (runAnnot [] [Op.killEnter cB TB, Op.killExit cB' rB])
          (Op.killExit cB' rB) ∧
    (∀ (m : KillMap) (k : Nat), k ≠ bpf_get_current_pid_tgid cA →
        mapLookup (stepOp m (Op.killEnter cA TA)).map k = mapLookup m k ∧
        mapLookup (stepOp m (Op.killExit cA' rA)).map k = mapLookup m k) := by
  have hBA : bpf_get_current_pid_tgid cB ≠ bpf_get_current_pid_tgid cA :=
    Ne.symm hAB
  have hcAB : cA ≠ cB := fun h => hAB (by rw [h])
  have hcBA : cB ≠ cA := Ne.symm hcAB
  have hcA'B' : cA' ≠ cB' := fun h => hAB (by rw [← hA, h, hB])
  have hcB'A' : cB' ≠ cA' := Ne.symm hcA'B'
  have hframe : ∀ (m : KillMap) (k : Nat), k ≠ bpf_get_current_pid_tgid cA →
      mapLookup (stepOp m (Op.killEnter cA TA)).map k = mapLookup m k ∧
      mapLookup (stepOp m (Op.killExit cA' rA)).map k = mapLookup m k := by
    intro m k hk
    refine ⟨mapLookup_mapUpdate_ne m _ k _ hk, ?_⟩
    rcases hlv : mapLookup m (bpf_get_current_pid_tgid cA') with _ | ev
    · rw [show stepOp m (Op.killExit cA' rA) = sys_exit_kill cA' rA m from rfl,
        sys_exit_kill_notfound _ _ _ hlv]
    · rw [show stepOp m (Op.killExit cA' rA) = sys_exit_kill cA' rA m from rfl,
        sys_exit_kill_found _ _ _ _ hlv]
      exact mapLookup_mapDelete_ne m _ k (by rw [hA]; exact hk)
  rcases interleave_two_two hil with rfl | rfl | rfl | rfl | rfl | rfl <;>
    refine ⟨?_, ?_, ?_, ?_, hframe⟩ <;>
    simp [pubOf, runAnnot, stepOp, sys_enter_kill, sys_exit_kill, hA, hB,
      hAB, hBA, hcAB, hcBA, hcA'B', hcB'A',
      mapLookup_mapUpdate_self, mapLookup_mapUpdate_ne,
      mapLookup_mapDelete_self, mapLookup_mapDelete_ne]

/-- C8 witness: `ctxA` kills target 500 successfully while `ctxB` fails to
kill target 600, in the interleaving A-enter, B-enter, A-exit, B-exit. -/
theorem key_isolation_witness :
    pubOf (runAnnot [] [Op.killEnter ctxA 500, Op.killEnter ctxB 600,
        Op.killExit ctxA 0, Op.killExit ctxB (-1)]) (Op.killEnter ctxA 500)
      = pubOf (runAnnot [] [Op.killEnter ctxA 500, Op.killExit ctxA 0])
          (Op.killEnter ctxA 500) ∧
    pubOf (runAnnot [] [Op.killEnter ctxA 500, Op.killEnter ctxB 600,
        Op.killExit ctxA 0, Op.killExit ctxB (-1)]) (Op.killExit ctxA 0)
      = pubOf (runAnnot [] [Op.killEnter ctxA 500, Op.killExit ctxA 0])
          (Op.killExit ctxA 0) ∧
    pubOf (runAnnot [] [Op.killEnter ctxA 500, Op.killEnter ctxB 600,
        Op.killExit ctxA 0, Op.killExit ctxB (-1)]) (Op.killEnter ctxB 600)
      = pubOf (runAnnot [] [Op.killEnter ctxB 600, Op.killExit ctxB (-1)])
          (Op.killEnter ctxB 600) ∧
    pubOf (runAnnot [] [Op.killEnter ctxA 500, Op.killEnter ctxB 600,
        Op.killExit ctxA 0, Op.killExit ctxB (-1)]) (Op.killExit ctxB (-1))
      = pubOf (runAnnot [] [Op.killEnter ctxB 600, Op.killExit ctxB (-1)])
          (Op.killExit ctxB (-1)) ∧
    (∀ (m : KillMap) (k : Nat), k ≠ bpf_get_current_pid_tgid ctxA →
        mapLookup (stepOp m (Op.killEnter ctxA 500)).map k = mapLookup m k ∧
        mapLookup (stepOp m (Op.killExit ctxA 0)).map k = mapLookup m k) :=
  key_isolation ctxA ctxA ctxB ctxB 500 600 0 (-1)
    [Op.killEnter ctxA 500, Op.killEnter ctxB 600,
      Op.killExit ctxA 0, Op.killExit ctxB (-1)]
    rfl rfl (by decide)
    (Interleave.left (Interleave.right (Interleave.left
      (Interleave.right Interleave.nil))))

/-- C7 witness: in the two-step run entry-then-successful-exit, the exit
step's published record is of type `'K'` and its op is a kill-exit with
return 0. -/
theorem kill_records_only_from_successful_exit_witness :
    ((Op.killExit ctxA 0, [killEvent ctxA 500]) ∈
      runAnnot [] [Op.killEnter ctxA 500, Op.killExit ctxA 0]) ∧
    ((∀ ev ∈ [killEvent ctxA 500], ev.type = 'K' →
        ∃ c, Op.killExit ctxA 0 = Op.killExit c 0) ∧
     (∀ c t, Op.killExit ctxA 0 = Op.killEnter c t →
        [killEvent ctxA 500] = [])) :=
  ⟨by decide,
   kill_records_only_from_successful_exit []
     [Op.killEnter ctxA 500, Op.killExit ctxA 0]
     (Op.killExit ctxA 0) [killEvent ctxA 500] (by decide)⟩

end BpfProgram
